import Mathlib

/-!
Verification development for the StreamCast server core: a shallow embedding
of the in-memory storage layer (`server/storage.ts`), the FFmpeg process
supervisor (`server/services/ffmpeg.ts`) and the streaming control routes
(`server/routes.ts`), together with theorems settling the specification
claims about session exclusivity, stop/exit handling, queue ordering and
the media probe.

Modelling conventions: each JavaScript `Map` is embedded as a Lean list in
insertion order (JS `Map.set` on a fresh key appends, `Map.set` on an
existing key updates in place, `Map.values()` iterates in insertion order);
`randomUUID` results are passed in as explicit fresh-identifier arguments;
`Date` timestamps are natural numbers; the stable `Array.prototype.sort`
(stable since ES2019) is embedded as a stable insertion sort.
-/

namespace StreamCast

/-- Video record (shared schema `videos` table): identifier, storage
filename, original display name, byte size, optional probed duration in
seconds and a status string. -/
structure Video where
  id : String
  filename : String
  originalName : String
  size : Int
  duration : Option Int
  status : String
  deriving DecidableEq, Repr

/-- Streaming session record (shared schema `streamingSessions` table). -/
structure StreamingSession where
  id : String
  status : String
  currentVideoId : Option String
  facebookPageId : Option String
  streamTitle : Option String
  streamDescription : Option String
  startTime : Option Nat
  endTime : Option Nat
  deriving DecidableEq, Repr

/-- Queue entry record (shared schema `streamingQueue` table). -/
structure StreamingQueue where
  id : String
  videoId : String
  position : Int
  sessionId : Option String
  deriving DecidableEq, Repr

/-- Facebook page credential record (shared schema `facebookCredentials`). -/
structure FacebookCredentials where
  id : String
  accessToken : String
  pageId : String
  pageName : String
  isActive : Bool
  deriving DecidableEq, Repr

/-- The mutable state of `MemStorage` (`server/storage.ts`), restricted to
the maps the claims are about.  Each map is a list in insertion order. -/
structure MemStorage where
  videos : List Video
  sessions : List StreamingSession
  queue : List StreamingQueue
  credentials : List FacebookCredentials
  deriving DecidableEq, Repr

/-- `MemStorage.getVideo` / `this.videos.get(id)`: lookup by key. -/
def findVideo (videos : List Video) (id : String) : Option Video :=
  videos.find? (fun v => v.id == id)

/-- `MemStorage.getCurrentSession` (storage.ts lines 94-96): scans all
sessions in insertion order for the first one with status `streaming`. -/
def getCurrentSession (sessions : List StreamingSession) : Option StreamingSession :=
  sessions.find? (fun s => s.status == "streaming")

/-- Number of sessions currently carrying status `streaming`. -/
def countStreaming (sessions : List StreamingSession) : Nat :=
  sessions.countP (fun s => s.status == "streaming")

/-- `MemStorage.updateSession` applied with the update object used by
`POST /api/stream/stop` (routes.ts lines 256-259): the session with the
given id gets status `stopped` and the given end time; every other session
is untouched.  (`Map.set` on an existing key updates in place.) -/
def markStopped (sessions : List StreamingSession) (id : String) (endT : Nat) :
    List StreamingSession :=
  sessions.map (fun s =>
    if s.id == id then { s with status := "stopped", endTime := some endT } else s)

/-- `MemStorage.deleteVideo` (storage.ts lines 90-92): `Map.delete`,
returning whether the key was present.  Only the videos map is touched. -/
def deleteVideo (st : MemStorage) (id : String) : MemStorage × Bool :=
  ({ st with videos := st.videos.filter (fun v => v.id != id) },
   st.videos.any (fun v => v.id == id))

/-- `MemStorage.addToQueue` (storage.ts lines 140-150): builds the entry
from the insert item and a fresh uuid and appends it to the queue map.
No lookup of the referenced video happens anywhere on this path. -/
def addToQueue (st : MemStorage) (videoId : String) (position : Int)
    (sessionId : Option String) (newId : String) : MemStorage × StreamingQueue :=
  let item : StreamingQueue :=
    { id := newId, videoId := videoId, position := position, sessionId := sessionId }
  ({ st with queue := st.queue ++ [item] }, item)

/-- One step of the stable insertion sort that embeds the ES2019-stable
`Array.prototype.sort((a, b) => a.position - b.position)` of
`MemStorage.getQueue`: the new element is placed after every strictly
smaller position and before equal ones, so earlier-inserted entries win
ties, exactly as a stable sort of the insertion-ordered map values. -/
def insertByPos (x : StreamingQueue) : List StreamingQueue → List StreamingQueue
  | [] => [x]
  | y :: ys => if y.position < x.position then y :: insertByPos x ys else x :: y :: ys

/-- Stable sort of the queue map values by ascending position. -/
def sortByPos : List StreamingQueue → List StreamingQueue
  | [] => []
  | x :: xs => insertByPos x (sortByPos xs)

/-- `MemStorage.getQueue` (storage.ts lines 126-138): sorts the queue map
values by ascending position, then keeps exactly the entries whose
referenced video is found in the videos map, pairing each with its video.
Entries whose video is missing are silently dropped from the result. -/
def getQueue (st : MemStorage) : List (StreamingQueue × Video) :=
  (sortByPos st.queue).filterMap
    (fun item => (findVideo st.videos item.videoId).map (fun v => (item, v)))

/-- `MemStorage.reorderQueue` (storage.ts lines 161-169): if an entry with
the given id exists, its position is reassigned in place (`Map.set` on an
existing key keeps the insertion position) and `true` is returned;
otherwise nothing changes and `false` is returned. -/
def reorderQueue (st : MemStorage) (id : String) (newPosition : Int) :
    MemStorage × Bool :=
  match st.queue.find? (fun q => q.id == id) with
  | none => (st, false)
  | some _ =>
    ({ st with queue := st.queue.map (fun q =>
        if q.id == id then { q with position := newPosition } else q) }, true)

/-- Options passed to `FFmpegService.startStream` (ffmpeg.ts lines 5-10). -/
structure StreamingOptions where
  inputFile : String
  rtmpUrl : String
  quality : String
  bitrate : String
  deriving DecidableEq, Repr

/-- The Node `ChildProcess` handle as the supervisor observes it.  The
`killed` flag follows Node semantics: it becomes `true` once
`subprocess.kill()` successfully sends a signal to the process; it does
not record that the process has exited (exit is observed through the
`close` event, after which the service nulls the handle). -/
structure ChildProcess where
  killed : Bool
  deriving DecidableEq, Repr

/-- Mutable state of `FFmpegService` (ffmpeg.ts lines 12-15). -/
structure FFmpegService where
  streamingProcess : Option ChildProcess
  isStreaming : Bool
  currentStreamInfo : Option StreamingOptions
  deriving DecidableEq, Repr

/-- What the spawned process did during the fixed 2-second confirmation
window of `startStream`: it emitted its `close` event (exited, including
being killed externally, since a killed process exits), it emitted the
`error` event (spawn failure), or it stayed alive. -/
inductive WindowOutcome
  | exited
  | errored
  | alive
  deriving DecidableEq, Repr

/-- Result of `FFmpegService.startStream` as surfaced to its caller:
the synchronous `AlreadyRunning` and `InputNotFound` throws, the
`LaunchFailed` rejection of the 2-second timeout callback, the rejection
with the spawn error, or success. -/
inductive LaunchResult
  | alreadyRunning
  | inputNotFound
  | launchFailed
  | spawnError
  | success
  deriving DecidableEq, Repr

/-- `FFmpegService.startStream` (ffmpeg.ts lines 17-80).  Throws
`AlreadyRunning` while `isStreaming`; throws `InputNotFound` when the
input file is absent on disk (`fileExists` is the `fs.existsSync` result);
otherwise spawns the process (handle with `killed := false`) and settles
after the fixed 2-second window: the `close` handler clears
`isStreaming` and the handle, the `error` handler does the same and
rejects, and the timeout callback resolves successfully exactly when the
handle is still present and not killed, recording the stream info. -/
def ffStart (ff : FFmpegService) (fileExists : Bool) (w : WindowOutcome)
    (opts : StreamingOptions) : FFmpegService × LaunchResult :=
  if ff.isStreaming then (ff, LaunchResult.alreadyRunning)
  else if fileExists = false then (ff, LaunchResult.inputNotFound)
  else
    match w with
    | WindowOutcome.exited =>
      ({ ff with streamingProcess := none, isStreaming := false },
       LaunchResult.launchFailed)
    | WindowOutcome.errored =>
      ({ ff with streamingProcess := none, isStreaming := false },
       LaunchResult.spawnError)
    | WindowOutcome.alive =>
      let proc : ChildProcess := { killed := false }
      if proc.killed = false then
        ({ streamingProcess := some proc, isStreaming := true,
           currentStreamInfo := some opts }, LaunchResult.success)
      else
        ({ ff with streamingProcess := some proc }, LaunchResult.launchFailed)

/-- The `close` handler installed by `startStream` (ffmpeg.ts lines
54-58), which is all that runs on an unexpected process exit: it sets
`isStreaming := false` and nulls the handle.  Nothing else in the service
or the routes reacts to the event. -/
def closeHandler (ff : FFmpegService) : FFmpegService :=
  { ff with isStreaming := false, streamingProcess := none }

/-- `FFmpegService.stopStream` (ffmpeg.ts lines 82-106) as its caller
sees it: a no-op returning `false` when no stream is active or no handle
exists; otherwise it signals the process, awaits the `close` event and
resolves `true` with the handle, flag and stream info cleared. -/
def ffStop (ff : FFmpegService) : FFmpegService × Bool :=
  if ff.isStreaming = false then (ff, false)
  else
    match ff.streamingProcess with
    | none => (ff, false)
    | some _ =>
      ({ streamingProcess := none, isStreaming := false,
         currentStreamInfo := none }, true)

/-- Signals `stopStream` can send to the subprocess. -/
inductive Signal
  | sigterm
  | sigkill
  deriving DecidableEq, Repr

/-- The sequence of signals `FFmpegService.stopStream` sends (ffmpeg.ts
lines 96-104).  `termDelivered` says whether `kill("SIGTERM")`
successfully delivered its signal (after which Node sets the handle's
`killed` flag to `true`); `exitedWithin5s` says whether the process
`close` event fired before the 5-second escalation timer (in which case
the handle is already null when the timer runs).  The timer sends
`SIGKILL` only when the handle is still present and its `killed` flag is
false. -/
def ffStopSignals (ff : FFmpegService) (termDelivered : Bool)
    (exitedWithin5s : Bool) : List Signal :=
  if ff.isStreaming = false then []
  else
    match ff.streamingProcess with
    | none => []
    | some proc =>
      let proc := { proc with killed := proc.killed || termDelivered }
      if exitedWithin5s then [Signal.sigterm]
      else if proc.killed = false then [Signal.sigterm, Signal.sigkill]
      else [Signal.sigterm]

/-- Parsed `info.format` of the ffprobe JSON output (ffmpeg.ts lines
140-142): a duration (a decimal number, embedded as a rational) and a
byte size. -/
structure ProbeFormat where
  duration : Rat
  size : Int
  deriving DecidableEq, Repr

/-- `FFmpegService.getVideoInfo` (ffmpeg.ts lines 121-154): on exit code
0 it parses the inspector output — `none` stands for output on which
`JSON.parse` or the field extraction throws — and returns
`Math.floor(parseFloat(duration))` with the size; on non-zero exit code
it rejects with `FFprobe failed` regardless of output. -/
def getVideoInfo (exitCode : Int) (output : Option ProbeFormat) :
    Except String (Int × Int) :=
  if exitCode = 0 then
    match output with
    | some fmt => Except.ok (Rat.floor fmt.duration, fmt.size)
    | none => Except.error "Failed to parse video info"
  else Except.error "FFprobe failed"

/-- WebSocket broadcasts emitted by the routes the claims mention. -/
inductive Broadcast
  | streamStarted (sessionId : String)
  | streamStopped (sessionId : String)
  | queueUpdated
  deriving DecidableEq, Repr

/-- Calls made to the `FacebookService` collaborator (unnamed source
part_000) by the route handlers. -/
inductive FbCall
  | createLiveVideo (pageId : String)
  | endLiveVideo (videoId : String)
  deriving DecidableEq, Repr

/-- The whole server state the streaming routes act on: the storage
singleton, the `ffmpegService` singleton, the log of broadcasts sent so
far and the log of Facebook API calls made so far. -/
structure SystemState where
  storage : MemStorage
  ffmpeg : FFmpegService
  broadcasts : List Broadcast
  fbCalls : List FbCall
  deriving DecidableEq, Repr

/-- Outcome of `POST /api/stream/start` (routes.ts lines 187-243). -/
inductive StartResult
  | videoNotFound
  | credentialsNotFound
  | serverError
  | ok (sessionId : String)
  deriving DecidableEq, Repr

/-- Outcome of `POST /api/stream/stop` (routes.ts lines 245-270). -/
inductive StopResult
  | noActiveStream
  | success
  deriving DecidableEq, Repr

/-- `POST /api/stream/start` (routes.ts lines 187-243): looks up the
video (404 when absent), then the page credential (400 when absent),
calls `facebookService.createLiveVideo` (`fbOk` is whether that call
succeeded; on failure the handler's catch returns 500), reads the
configuration (defaults `1080p`/`4000`), runs `ffmpegService.startStream`
(any throw or rejection is caught as 500), and only on launch success
creates a session with status `streaming` and broadcasts
`stream_started`.  `newSessionId` stands for the fresh uuid and `now`
for `new Date()`. -/
def requestStart (st : SystemState) (videoId pageId : String)
    (streamTitle streamDescription : Option String) (streamUrl : String)
    (fbOk fileExists : Bool) (w : WindowOutcome) (newSessionId : String)
    (now : Nat) : SystemState × StartResult :=
  match findVideo st.storage.videos videoId with
  | none => (st, StartResult.videoNotFound)
  | some video =>
    match st.storage.credentials.find? (fun c => c.pageId == pageId) with
    | none => (st, StartResult.credentialsNotFound)
    | some _ =>
      let st1 := { st with fbCalls := st.fbCalls ++ [FbCall.createLiveVideo pageId] }
      if fbOk = false then (st1, StartResult.serverError)
      else
        let opts : StreamingOptions :=
          { inputFile := video.filename, rtmpUrl := streamUrl,
            quality := "1080p", bitrate := "4000" }
        let res := ffStart st1.ffmpeg fileExists w opts
        let st2 := { st1 with ffmpeg := res.1 }
        match res.2 with
        | LaunchResult.success =>
          let session : StreamingSession :=
            { id := newSessionId, status := "streaming",
              currentVideoId := some videoId, facebookPageId := some pageId,
              streamTitle := streamTitle, streamDescription := streamDescription,
              startTime := some now, endTime := none }
          ({ st2 with
              storage := { st2.storage with
                sessions := st2.storage.sessions ++ [session] },
              broadcasts := st2.broadcasts ++ [Broadcast.streamStarted newSessionId] },
           StartResult.ok newSessionId)
        | _ => (st2, StartResult.serverError)

/-- `POST /api/stream/stop` (routes.ts lines 245-270): returns 400
`No active stream found` when `getCurrentSession` finds no session with
status `streaming`, leaving everything untouched; otherwise it awaits
`ffmpegService.stopStream()`, marks the found session `stopped` with the
end time and broadcasts `stream_stopped`.  No call to the Facebook
collaborator appears anywhere on this path. -/
def requestStop (st : SystemState) (now : Nat) : SystemState × StopResult :=
  match getCurrentSession st.storage.sessions with
  | none => (st, StopResult.noActiveStream)
  | some cur =>
    ({ st with
        storage := { st.storage with
          sessions := markStopped st.storage.sessions cur.id now },
        ffmpeg := (ffStop st.ffmpeg).1,
        broadcasts := st.broadcasts ++ [Broadcast.streamStopped cur.id] },
     StopResult.success)

/-- An unexpected exit of the streaming subprocess: the only code that
runs is the `close` handler of `startStream`, scoped entirely to the
`FFmpegService` fields.  The event can only fire while a handle exists. -/
def unexpectedExit (st : SystemState) : SystemState :=
  match st.ffmpeg.streamingProcess with
  | none => st
  | some _ => { st with ffmpeg := closeHandler st.ffmpeg }

/-- `POST /api/queue` (routes.ts lines 140-154): parses the insert item
(video id, caller-supplied position, optional session id), stores it via
`addToQueue` and broadcasts `queue_updated`.  The handler performs no
lookup of the video id. -/
def postQueue (st : SystemState) (videoId : String) (position : Int)
    (sessionId : Option String) (newId : String) : SystemState × StreamingQueue :=
  let res := addToQueue st.storage videoId position sessionId newId
  ({ st with
      storage := res.1,
      broadcasts := st.broadcasts ++ [Broadcast.queueUpdated] }, res.2)

/-- External events driving the streaming session lifecycle. -/
inductive Ev
  | start (videoId pageId : String) (streamTitle streamDescription : Option String)
      (streamUrl : String) (fbOk fileExists : Bool) (w : WindowOutcome)
      (newSessionId : String) (now : Nat)
  | stop (now : Nat)
  | procExit
  deriving DecidableEq, Repr

/-- One step of the event-driven system. -/
def step (st : SystemState) : Ev → SystemState
  | Ev.start videoId pageId t d url fbOk fe w sid now =>
    (requestStart st videoId pageId t d url fbOk fe w sid now).1
  | Ev.stop now => (requestStop st now).1
  | Ev.procExit => unexpectedExit st

/-- Run a sequence of events from a state. -/
def run (st : SystemState) (evs : List Ev) : SystemState :=
  evs.foldl step st

/-- Membership is preserved by the stable insertion step. -/
theorem mem_insertByPos {x z : StreamingQueue} {l : List StreamingQueue} :
    z ∈ insertByPos x l ↔ z = x ∨ z ∈ l := by
  induction l with
  | nil => simp [insertByPos]
  | cons y ys ih =>
    by_cases h : y.position < x.position
    · simp only [insertByPos, if_pos h, List.mem_cons, ih]
      tauto
    · simp only [insertByPos, if_neg h, List.mem_cons]

/-- Membership is preserved by the stable sort. -/
theorem mem_sortByPos {z : StreamingQueue} {l : List StreamingQueue} :
    z ∈ sortByPos l ↔ z ∈ l := by
  induction l with
  | nil => simp [sortByPos]
  | cons x xs ih => simp [sortByPos, mem_insertByPos, ih]

/-- Inserting into a position-sorted list keeps it position-sorted. -/
theorem pairwise_insertByPos {x : StreamingQueue} {l : List StreamingQueue}
    (h : l.Pairwise (fun a b => a.position ≤ b.position)) :
    (insertByPos x l).Pairwise (fun a b => a.position ≤ b.position) := by
  induction l with
  | nil => simp [insertByPos]
  | cons y ys ih =>
    rcases List.pairwise_cons.1 h with ⟨hy, hys⟩
    by_cases hlt : y.position < x.position
    · simp only [insertByPos, if_pos hlt]
      refine List.pairwise_cons.2 ⟨?_, ih hys⟩
      intro a ha
      rcases mem_insertByPos.1 ha with rfl | ha'
      · exact le_of_lt hlt
      · exact hy a ha'
    · simp only [insertByPos, if_neg hlt]
      refine List.pairwise_cons.2 ⟨?_, h⟩
      intro a ha
      rcases List.mem_cons.1 ha with rfl | ha'
      · exact le_of_not_lt hlt
      · exact le_trans (le_of_not_lt hlt) (hy a ha')

/-- The stable sort output is position-sorted. -/
theorem pairwise_sortByPos (l : List StreamingQueue) :
    (sortByPos l).Pairwise (fun a b => a.position ≤ b.position) := by
  induction l with
  | nil => simp [sortByPos]
  | cons x xs ih =>
    simp only [sortByPos]
    exact pairwise_insertByPos ih

/-- The public queue read is position-sorted. -/
theorem pairwise_getQueue (st : MemStorage) :
    (getQueue st).Pairwise (fun p q => p.1.position ≤ q.1.position) := by
  refine List.Pairwise.filterMap _ ?_ (pairwise_sortByPos st.queue)
  intro a a' hle b hb b' hb'
  rcases Option.map_eq_some'.1 hb with ⟨v, _, hv⟩
  rcases Option.map_eq_some'.1 hb' with ⟨v', _, hv'⟩
  subst hv
  subst hv'
  exact hle

/-- Every element of the public queue read comes from the queue map and
carries exactly the catalog video its entry references. -/
theorem mem_getQueue {st : MemStorage} {p : StreamingQueue × Video}
    (h : p ∈ getQueue st) :
    p.1 ∈ st.queue ∧ findVideo st.videos p.1.videoId = some p.2 := by
  rcases List.mem_filterMap.1 h with ⟨a, ha, hfa⟩
  rcases Option.map_eq_some'.1 hfa with ⟨v, hv, hpv⟩
  subst hpv
  exact ⟨mem_sortByPos.1 ha, hv⟩

/-- A queue entry whose video resolves appears in the public queue read. -/
theorem getQueue_mem_of {st : MemStorage} {e : StreamingQueue} {v : Video}
    (he : e ∈ st.queue) (hv : findVideo st.videos e.videoId = some v) :
    (e, v) ∈ getQueue st :=
  List.mem_filterMap.2 ⟨e, mem_sortByPos.2 he, by rw [hv]; rfl⟩

/-- The head of the public queue read has minimal position among the
returned entries. -/
theorem head_getQueue_min {st : MemStorage} {p q : StreamingQueue × Video}
    (hh : (getQueue st).head? = some p) (hq : q ∈ getQueue st) :
    p.1.position ≤ q.1.position := by
  have hp := pairwise_getQueue st
  cases hgl : getQueue st with
  | nil => rw [hgl] at hh; cases hh
  | cons a rest =>
    rw [hgl] at hh hq hp
    injection hh with hh
    subst hh
    rcases List.mem_cons.1 hq with rfl | hq'
    · exact le_refl _
    · exact List.rel_of_pairwise_cons hp hq'

/-- The scan for a streaming session comes up empty exactly when no
session carries status `streaming`. -/
theorem getCurrentSession_eq_none_iff {l : List StreamingSession} :
    getCurrentSession l = none ↔ countStreaming l = 0 := by
  rw [getCurrentSession, countStreaming, List.find?_eq_none, List.countP_eq_zero]

/-- Marking the session found by `getCurrentSession` as stopped brings the
number of streaming sessions to zero, provided at most one was streaming. -/
theorem countStreaming_markStopped (t : Nat) :
    ∀ (l : List StreamingSession) (cur : StreamingSession),
      getCurrentSession l = some cur → countStreaming l ≤ 1 →
      countStreaming (markStopped l cur.id t) = 0 := by
  intro l
  induction l with
  | nil => intro cur hf _; cases hf
  | cons a tl ih =>
    intro cur hf hc
    rw [getCurrentSession] at hf
    cases hp : (a.status == "streaming") with
    | true =>
      simp only [List.find?, hp] at hf
      injection hf with hcur
      subst hcur
      have h0 : countStreaming tl = 0 := by
        rw [countStreaming]
        rw [countStreaming, List.countP_cons, if_pos hp] at hc
        omega
      have h1 : countStreaming (markStopped tl a.id t) = 0 := by
        rw [countStreaming, markStopped, List.countP_eq_zero]
        intro y hy
        rcases List.mem_map.1 hy with ⟨x, hx, hxy⟩
        subst hxy
        by_cases hid : (x.id == a.id) = true
        · rw [if_pos hid]
          simp
        · rw [if_neg hid]
          exact List.countP_eq_zero.1 h0 x hx
      rw [countStreaming, markStopped, List.map_cons, List.countP_cons]
      rw [countStreaming, markStopped] at h1
      rw [h1, if_neg (by simp)]
    | false =>
      simp only [List.find?, hp] at hf
      have hc' : countStreaming tl ≤ 1 := by
        rw [countStreaming]
        rw [countStreaming, List.countP_cons, if_neg (by simp [hp])] at hc
        omega
      have h0 := ih cur (by rw [getCurrentSession]; exact hf) hc'
      rw [countStreaming, markStopped, List.map_cons, List.countP_cons]
      rw [countStreaming, markStopped] at h0
      rw [h0, if_neg]
      by_cases hid : (a.id == cur.id) = true
      · rw [if_pos hid]
        simp
      · rw [if_neg hid]
        simp [hp]

/-- A ready video sitting in the catalog. -/
def exVideo : Video :=
  { id := "v1", filename := "a.mp4", originalName := "A", size := 10,
    duration := some 5, status := "ready" }

/-- A stored Facebook page credential. -/
def exCred : FacebookCredentials :=
  { id := "c1", accessToken := "tok", pageId := "p1", pageName := "Page",
    isActive := true }

/-- Fresh server state: one catalog video, one page credential, no
sessions, empty queue, idle ffmpeg service, nothing broadcast yet. -/
def exInit : SystemState :=
  { storage := { videos := [exVideo], sessions := [], queue := [],
                 credentials := [exCred] },
    ffmpeg := { streamingProcess := none, isStreaming := false,
                currentStreamInfo := none },
    broadcasts := [], fbCalls := [] }

/-- The event sequence of the C1 failing input: a successful start, an
unexpected process exit, then a second start request. -/
def exTrace : List Ev :=
  [ Ev.start "v1" "p1" (some "T") none "rtmp://x" true true
      WindowOutcome.alive "s1" 0,
    Ev.procExit,
    Ev.start "v1" "p1" (some "T") none "rtmp://x" true true
      WindowOutcome.alive "s2" 7 ]

/-- C1: the claimed invariant — at most one session has status
`streaming` under any sequence of start, stop and process-exit events —
fails on the code.  After a successful start, an unexpected subprocess
exit (which only clears the ffmpeg service's flag and handle, touching no
session) and a second start request, two distinct session records both
carry status `streaming`. -/
theorem two_streaming_sessions_after_unexpected_exit :
    countStreaming (run exInit exTrace).storage.sessions = 2 := by decide

/-- C2: the code handles an unexpected subprocess exit with the `close`
handler of `startStream` alone, which only mutates the ffmpeg service
fields.  Whatever the server state, the exit leaves every session record
(in particular a live one: its status stays `streaming`, never becoming
"error") and the broadcast log unchanged: the exit is silently absorbed,
contradicting the claimed transition to error plus notification. -/
theorem unexpected_exit_is_silent (st : SystemState) :
    (unexpectedExit st).storage = st.storage ∧
    (unexpectedExit st).broadcasts = st.broadcasts := by
  rw [unexpectedExit]
  cases st.ffmpeg.streamingProcess with
  | none => exact ⟨rfl, rfl⟩
  | some p => exact ⟨rfl, rfl⟩

/-- C3: `POST /api/stream/stop` returns `No active stream found` exactly
when no session has status `streaming`, and in that case the state is
completely unchanged; and (when at most one session is streaming, the
situation the claim's invariant presumes) a second consecutive stop
always returns `No active stream found` and changes nothing, so no second
`stream_stopped` broadcast is emitted. -/
theorem requestStop_fails_iff_no_streaming (st : SystemState) (t1 t2 : Nat)
    (h : countStreaming st.storage.sessions ≤ 1) :
    ((requestStop st t1).2 = StopResult.noActiveStream ↔
      countStreaming st.storage.sessions = 0) ∧
    (countStreaming st.storage.sessions = 0 →
      (requestStop st t1).1 = st) ∧
    requestStop (requestStop st t1).1 t2 =
      ((requestStop st t1).1, StopResult.noActiveStream) := by
  cases hf : getCurrentSession st.storage.sessions with
  | none =>
    have h0 : countStreaming st.storage.sessions = 0 :=
      getCurrentSession_eq_none_iff.1 hf
    have hr : requestStop st t1 = (st, StopResult.noActiveStream) := by
      rw [requestStop, hf]
    refine ⟨by rw [hr]; simpa using h0, fun _ => by rw [hr], ?_⟩
    rw [hr]
    show requestStop st t2 = (st, StopResult.noActiveStream)
    rw [requestStop, hf]
  | some cur =>
    have hpos : countStreaming st.storage.sessions ≠ 0 := by
      intro h0
      rw [← getCurrentSession_eq_none_iff, hf] at h0
      cases h0
    have hr : (requestStop st t1).2 = StopResult.success := by
      rw [requestStop, hf]
    have hsess : (requestStop st t1).1.storage.sessions =
        markStopped st.storage.sessions cur.id t1 := by
      rw [requestStop, hf]
    have h0' : countStreaming (requestStop st t1).1.storage.sessions = 0 := by
      rw [hsess]
      exact countStreaming_markStopped t1 st.storage.sessions cur hf h
    refine ⟨by rw [hr]; simp [hpos], fun h0 => absurd h0 hpos, ?_⟩
    rw [requestStop, getCurrentSession_eq_none_iff.2 h0']

/-- A server state with exactly one live session and an active process. -/
def exLiveSt : SystemState :=
  { storage := { videos := [exVideo],
                 sessions := [{ id := "s1", status := "streaming",
                                currentVideoId := some "v1",
                                facebookPageId := some "p1",
                                streamTitle := some "T",
                                streamDescription := none,
                                startTime := some 0, endTime := none }],
                 queue := [], credentials := [exCred] },
    ffmpeg := { streamingProcess := some { killed := false },
                isStreaming := true,
                currentStreamInfo := none },
    broadcasts := [], fbCalls := [] }

/-- Witness for C3 at a concrete live state: the hypothesis holds and the
second consecutive stop returns `No active stream found` unchanged. -/
theorem requestStop_fails_iff_no_streaming_witness :
    countStreaming exLiveSt.storage.sessions ≤ 1 ∧
    requestStop (requestStop exLiveSt 3).1 4 =
      ((requestStop exLiveSt 3).1, StopResult.noActiveStream) :=
  ⟨by decide, (requestStop_fails_iff_no_streaming exLiveSt 3 4 (by decide)).2.2⟩

/-- C4: the stop handler never talks to the Facebook collaborator: for
every state and timestamp, the list of Facebook API calls after
`POST /api/stream/stop` equals the list before, so `endLiveVideo` is
never invoked for a stopped session — contradicting the claim that every
successful stop ends the remote live target.  (The `endLiveVideo` method
exists in the collaborator but has no caller; the session record does not
even retain the live video id needed to call it.) -/
theorem requestStop_never_calls_facebook (st : SystemState) (now : Nat) :
    (requestStop st now).1.fbCalls = st.fbCalls := by
  rw [requestStop]
  cases getCurrentSession st.storage.sessions with
  | none => rfl
  | some cur => rfl

/-- A catalog video referenced by queue entries. -/
def exVA : Video :=
  { id := "vA", filename := "va.mp4", originalName := "VA", size := 1,
    duration := none, status := "ready" }

/-- A second catalog video referenced by queue entries. -/
def exVB : Video :=
  { id := "vB", filename := "vb.mp4", originalName := "VB", size := 1,
    duration := none, status := "ready" }

/-- First enqueued entry, at position 0. -/
def exE1 : StreamingQueue :=
  { id := "e1", videoId := "vA", position := 0, sessionId := none }

/-- Second enqueued entry, at position 1. -/
def exE2 : StreamingQueue :=
  { id := "e2", videoId := "vB", position := 1, sessionId := none }

/-- Storage with two resolvable queue entries at positions 0 and 1. -/
def exTieSt : MemStorage :=
  { videos := [exVA, exVB], sessions := [], queue := [exE1, exE2],
    credentials := [] }

/-- C5 counterexample: with entries e1 at position 0 and e2 at position 1
(both videos in the catalog), `reorder(e2, 0)` succeeds, yet the next
`dequeueHead` (the head of the queue read) returns e1, not e2: the stable
sort breaks the position tie in favour of the earlier-inserted entry, so
the claim "after reorder(X, 0) the next dequeueHead returns X" fails. -/
theorem reorder_to_front_returns_old_head :
    (reorderQueue exTieSt "e2" 0).2 = true ∧
    (getQueue (reorderQueue exTieSt "e2" 0).1).head?.map (fun p => p.1.id) =
      some "e1" ∧
    ("e1" : String) ≠ "e2" := by decide

/-- C5 (amended): the head of the queue read has minimal position among
the entries whose video is in the catalog (ties go to the
earlier-inserted entry, as the counterexample shows); and after
`reorder(X, 0)`, the next `dequeueHead` returns X provided X's video is
in the catalog and every other entry has position at least 1 (so X alone
holds the minimum). -/
theorem dequeueHead_min_and_reorder_front :
    (∀ (st : MemStorage) (p q : StreamingQueue × Video),
      (getQueue st).head? = some p → q ∈ getQueue st →
      p.1.position ≤ q.1.position) ∧
    (∀ (st : MemStorage) (e : StreamingQueue) (v : Video),
      e ∈ st.queue → findVideo st.videos e.videoId = some v →
      (∀ f ∈ st.queue, f.id ≠ e.id → 1 ≤ f.position) →
      (getQueue (reorderQueue st e.id 0).1).head?.map (fun p => p.1.id) =
        some e.id) := by
  constructor
  · intro st p q hh hq
    exact head_getQueue_min hh hq
  · intro st e v he hv hpos
    obtain ⟨y, hy⟩ : ∃ y, st.queue.find? (fun q => q.id == e.id) = some y := by
      have hs : (st.queue.find? (fun q => q.id == e.id)).isSome :=
        List.find?_isSome.2 ⟨e, he, by simp⟩
      exact Option.isSome_iff_exists.1 hs
    have hq' : (reorderQueue st e.id 0).1.queue =
        st.queue.map (fun q =>
          if q.id == e.id then { q with position := 0 } else q) := by
      rw [reorderQueue, hy]
    have hvid : (reorderQueue st e.id 0).1.videos = st.videos := by
      rw [reorderQueue, hy]
    have he'mem : ({ e with position := 0 } : StreamingQueue) ∈
        (reorderQueue st e.id 0).1.queue := by
      rw [hq']
      refine List.mem_map.2 ⟨e, he, ?_⟩
      rw [if_pos (by simp)]
    have hv' : findVideo (reorderQueue st e.id 0).1.videos
        ({ e with position := 0 } : StreamingQueue).videoId = some v := by
      rw [hvid]
      exact hv
    have hmem : (({ e with position := 0 } : StreamingQueue), v) ∈
        getQueue (reorderQueue st e.id 0).1 := getQueue_mem_of he'mem hv'
    obtain ⟨p, hp⟩ : ∃ p, (getQueue (reorderQueue st e.id 0).1).head? = some p := by
      cases hgq : getQueue (reorderQueue st e.id 0).1 with
      | nil => rw [hgq] at hmem; cases hmem
      | cons a rest => exact ⟨a, rfl⟩
    have hmin : p.1.position ≤ 0 := head_getQueue_min hp hmem
    have hpmem : p ∈ getQueue (reorderQueue st e.id 0).1 := by
      cases hgq : getQueue (reorderQueue st e.id 0).1 with
      | nil => rw [hgq] at hp; cases hp
      | cons a rest =>
        rw [hgq] at hp
        injection hp with hpa
        subst hpa
        exact List.mem_cons_self _ _
    have hq1 : p.1 ∈ (reorderQueue st e.id 0).1.queue := (mem_getQueue hpmem).1
    rw [hq'] at hq1
    rcases List.mem_map.1 hq1 with ⟨x, hx, hfx⟩
    have hid : p.1.id = e.id := by
      by_cases hxe : (x.id == e.id) = true
      · rw [if_pos hxe] at hfx
        rw [← hfx]
        exact beq_iff_eq.1 hxe
      · rw [if_neg hxe] at hfx
        have h1 : 1 ≤ x.position := hpos x hx (by simpa using hxe)
        rw [← hfx] at hmin
        omega
    rw [hp, Option.map_some', hid]

/-- Storage where e2 is the only entry that can take over the front:
positions 1 and 2, both videos resolvable. -/
def exGapSt : MemStorage :=
  { videos := [exVA, exVB], sessions := [],
    queue := [{ id := "e1", videoId := "vA", position := 1, sessionId := none },
              { id := "e2", videoId := "vB", position := 2, sessionId := none }],
    credentials := [] }

/-- Witness for the amended C5 at a concrete storage: every other entry
has position at least 1, and after `reorder(e2, 0)` the head of the
queue read is e2. -/
theorem dequeueHead_min_and_reorder_front_witness :
    ({ id := "e2", videoId := "vB", position := 2, sessionId := none } :
      StreamingQueue) ∈ exGapSt.queue ∧
    (getQueue (reorderQueue exGapSt "e2" 0).1).head?.map (fun p => p.1.id) =
      some "e2" :=
  ⟨by decide,
   dequeueHead_min_and_reorder_front.2 exGapSt
     { id := "e2", videoId := "vB", position := 2, sessionId := none } exVB
     (by decide) (by decide) (by decide)⟩

/-- Server state with an empty catalog and empty queue. -/
def exEmptySys : SystemState :=
  { storage := { videos := [], sessions := [], queue := [], credentials := [] },
    ffmpeg := { streamingProcess := none, isStreaming := false,
                currentStreamInfo := none },
    broadcasts := [], fbCalls := [] }

/-- C6 counterexample: the catalog is empty and the queue has length 0,
yet the enqueue request for the unknown video id `ghost` with
caller-supplied position 7 succeeds and creates exactly that entry — no
`NotFound` failure, no catalog lookup, and a position unrelated to the
current queue length. -/
theorem enqueue_unknown_video_succeeds :
    findVideo exEmptySys.storage.videos "ghost" = none ∧
    exEmptySys.storage.queue.length = 0 ∧
    (postQueue exEmptySys "ghost" 7 none "q1").1.storage.queue =
      [{ id := "q1", videoId := "ghost", position := 7, sessionId := none }] := by
  decide

/-- C6 (amended): every enqueue request appends one new entry at the tail
of the queue map carrying exactly the caller-supplied position (clients
send the current queue length to append at the tail), with no consultation
of the video catalog and hence no `NotFound` failure; the catalog is left
untouched and `queue_updated` is broadcast. -/
theorem postQueue_appends_caller_position (st : SystemState) (videoId : String)
    (pos : Int) (sid : Option String) (newId : String) :
    (postQueue st videoId pos sid newId).1.storage.queue =
      st.storage.queue ++
        [{ id := newId, videoId := videoId, position := pos, sessionId := sid }] ∧
    (postQueue st videoId pos sid newId).2 =
      { id := newId, videoId := videoId, position := pos, sessionId := sid } ∧
    (postQueue st videoId pos sid newId).1.storage.videos = st.storage.videos ∧
    (postQueue st videoId pos sid newId).1.broadcasts =
      st.broadcasts ++ [Broadcast.queueUpdated] :=
  ⟨rfl, rfl, rfl, rfl⟩

/-- C7: `startStream` throws `AlreadyRunning` while a stream is active
and `InputNotFound` when the input file is missing, both leaving the
service untouched (no process spawned); after the fixed 2-second
confirmation window it reports success exactly when the process is still
there (handle present, not killed), retaining the handle; and it fails
`LaunchFailed` with the handle discarded when the process exited (or was
killed, which surfaces as its exit) within the window. -/
theorem startStream_spec (ff : FFmpegService) (fe : Bool) (w : WindowOutcome)
    (opts : StreamingOptions) :
    (ff.isStreaming = true → ffStart ff fe w opts = (ff, LaunchResult.alreadyRunning)) ∧
    (ff.isStreaming = false → fe = false →
      ffStart ff fe w opts = (ff, LaunchResult.inputNotFound)) ∧
    (ff.isStreaming = false → fe = true → w = WindowOutcome.exited →
      ffStart ff fe w opts =
        ({ ff with streamingProcess := none, isStreaming := false },
         LaunchResult.launchFailed)) ∧
    (ff.isStreaming = false → fe = true → w = WindowOutcome.alive →
      ffStart ff fe w opts =
        ({ streamingProcess := some { killed := false }, isStreaming := true,
           currentStreamInfo := some opts }, LaunchResult.success)) ∧
    (ff.isStreaming = false → fe = true →
      ((ffStart ff fe w opts).2 = LaunchResult.success ↔ w = WindowOutcome.alive)) := by
  refine ⟨?_, ?_, ?_, ?_, ?_⟩
  · intro h
    simp [ffStart, h]
  · intro h hfe
    subst hfe
    simp [ffStart, h]
  · intro h hfe hw
    subst hfe
    subst hw
    simp [ffStart, h]
  · intro h hfe hw
    subst hfe
    subst hw
    simp [ffStart, h]
  · intro h hfe
    subst hfe
    cases w <;> simp [ffStart, h]

/-- An idle ffmpeg service. -/
def exIdleFF : FFmpegService :=
  { streamingProcess := none, isStreaming := false, currentStreamInfo := none }

/-- Launch options used by the witness. -/
def exOpts : StreamingOptions :=
  { inputFile := "a.mp4", rtmpUrl := "rtmp://x", quality := "1080p",
    bitrate := "4000" }

/-- Witness for C7: from the idle service with the file present and a
process that stays alive through the window, the launch succeeds and the
handle is retained. -/
theorem startStream_spec_witness :
    exIdleFF.isStreaming = false ∧
    ffStart exIdleFF true WindowOutcome.alive exOpts =
      ({ streamingProcess := some { killed := false }, isStreaming := true,
         currentStreamInfo := some exOpts }, LaunchResult.success) :=
  ⟨rfl, (startStream_spec exIdleFF true WindowOutcome.alive exOpts).2.2.2.1 rfl rfl rfl⟩

/-- C8: once `kill("SIGTERM")` has successfully delivered its signal
(Node then sets the handle's `killed` flag), the 5-second escalation
timer's guard `streamingProcess && !streamingProcess.killed` is false, so
`stopStream` never sends `SIGKILL` — whatever the service state and
whether or not the process exited within the 5 seconds.  This contradicts
the claim (and the code's own comment) that a forceful kill is sent when
the process has not exited by the time the timer fires. -/
theorem stopStream_never_escalates (ff : FFmpegService) (exitedWithin5s : Bool) :
    (ffStopSignals ff true exitedWithin5s).count Signal.sigkill = 0 := by
  rw [ffStopSignals]
  by_cases h : ff.isStreaming = false
  · rw [if_pos h]
    rfl
  · rw [if_neg h]
    cases ff.streamingProcess with
    | none => rfl
    | some proc =>
      cases exitedWithin5s with
      | true => simp
      | false => simp

/-- C9: on inspector exit code 0 with parseable output reporting duration
D and size S, the probe returns exactly `{duration := floor D, size := S}`;
it fails with `FFprobe failed` on any non-zero exit code and with
`Failed to parse video info` when the output cannot be parsed. -/
theorem getVideoInfo_spec (d : Rat) (s c : Int) (out : Option ProbeFormat) :
    getVideoInfo 0 (some { duration := d, size := s }) =
      Except.ok (Rat.floor d, s) ∧
    (c ≠ 0 → getVideoInfo c out = Except.error "FFprobe failed") ∧
    getVideoInfo 0 none = Except.error "Failed to parse video info" := by
  refine ⟨rfl, ?_, rfl⟩
  intro hc
  rw [getVideoInfo.eq_def, if_neg hc]

/-- Witness for C9: exit code 3 is non-zero and the probe fails. -/
theorem getVideoInfo_spec_witness :
    (3 : Int) ≠ 0 ∧ getVideoInfo 3 none = Except.error "FFprobe failed" :=
  ⟨by decide, (getVideoInfo_spec 0 0 3 none).2.1 (by decide)⟩

/-- C10: the public queue read returns only entries whose referenced
video resolves in the catalog, each paired with that video, sorted by
ascending position; entries whose video is missing (for example after
`deleteVideo`) never appear in the result; and the orphaned entries stay
in the underlying queue map, which `deleteVideo` does not touch. -/
theorem getQueue_resolves_sorted_hides_orphans (st : MemStorage) (vid : String) :
    (∀ p ∈ getQueue st, p.1 ∈ st.queue ∧
      findVideo st.videos p.1.videoId = some p.2) ∧
    (getQueue st).Pairwise (fun p q => p.1.position ≤ q.1.position) ∧
    (∀ e ∈ st.queue, findVideo st.videos e.videoId = none →
      ∀ p ∈ getQueue st, p.1 ≠ e) ∧
    (deleteVideo st vid).1.queue = st.queue := by
  refine ⟨fun p hp => mem_getQueue hp, pairwise_getQueue st, ?_, rfl⟩
  intro e he hnone p hp heq
  have h2 := (mem_getQueue hp).2
  rw [heq, hnone] at h2
  cases h2

/-- A queue entry whose referenced video is absent from the catalog. -/
def exOrphan : StreamingQueue :=
  { id := "eo", videoId := "ghost", position := 0, sessionId := none }

/-- A queue entry whose referenced video is present. -/
def exEA : StreamingQueue :=
  { id := "ea", videoId := "vA", position := 1, sessionId := none }

/-- Storage holding one orphaned and one resolvable queue entry. -/
def exOrphanSt : MemStorage :=
  { videos := [exVA], sessions := [], queue := [exOrphan, exEA],
    credentials := [] }

/-- Witness for C10 at a concrete storage: the single visible entry is
not the orphan, and deleting a video leaves the queue map unchanged. -/
theorem getQueue_resolves_sorted_hides_orphans_witness :
    (exEA, exVA).1 ≠ exOrphan ∧
    (deleteVideo exOrphanSt "vA").1.queue = exOrphanSt.queue :=
  ⟨(getQueue_resolves_sorted_hides_orphans exOrphanSt "vA").2.2.1 exOrphan
      (by decide) (by decide) (exEA, exVA) (by decide),
   (getQueue_resolves_sorted_hides_orphans exOrphanSt "vA").2.2.2⟩

end StreamCast
